import Mathlib

/-!
Verification of the `tau` reactive dataflow core (`src/tau/core.py`).

Nodes (Python objects compared by reference identity) are modelled as natural
number handles.  Python dicts keyed on node identity are modelled as
association lists with insertion-ordered append and in-place overwrite, which
matches CPython dict semantics for the operations the code uses.  Machine
integers are modelled as `Int` (Python integers are unbounded).  Operations
that can raise `KeyError`/`ValueError` return `Option`/`Except`-style values.
-/

set_option autoImplicit false

namespace Tau

/-- Model of Python dict indexing `d[k]`: `none` models a raised `KeyError`. -/
def dictLookup {α : Type} : List (Nat × α) → Nat → Option α
  | [], _ => none
  | (k, v) :: rest, key => if k = key then some v else dictLookup rest key

/-- Model of Python dict assignment `d[k] = v`: overwrite in place when the key
is present, append otherwise (CPython preserves insertion order). -/
def dictInsert {α : Type} : List (Nat × α) → Nat → α → List (Nat × α)
  | [], key, v => [(key, v)]
  | (k, w) :: rest, key, v =>
    if k = key then (k, v) :: rest else (k, w) :: dictInsert rest key v

/-- Model of Python `del d[k]`: `none` models a raised `KeyError`. -/
def dictDelete {α : Type} : List (Nat × α) → Nat → Option (List (Nat × α))
  | [], _ => none
  | (k, v) :: rest, key =>
    if k = key then some rest
    else (dictDelete rest key).map (fun r => (k, v) :: r)

/-- Model of the `Signal`/`MutableSignal` state in `tau.core`: the held value
(`self.value`, `None` modelled as `none`) and the dirty flag (`self.modified`). -/
structure MutableSignal where
  value : Option Int
  modified : Bool
deriving DecidableEq, Repr

/-- Model of `Signal.__init__(initial_value)`: stores the value, dirty flag false. -/
def MutableSignal.init (v : Option Int) : MutableSignal := ⟨v, false⟩

/-- Model of `Signal.is_valid`: true iff the value is non-None. -/
def MutableSignal.is_valid (s : MutableSignal) : Bool := s.value.isSome

/-- Model of `Signal.get_value`. -/
def MutableSignal.get_value (s : MutableSignal) : Option Int := s.value

/-- Model of `MutableSignal.on_activate`: if the dirty flag is set, clear it and
return true; otherwise return false and leave the state unchanged. -/
def MutableSignal.on_activate (s : MutableSignal) : Bool × MutableSignal :=
  if s.modified then (true, { s with modified := false }) else (false, s)

/-- Model of `MutableSignal.set_value`, which calls `Signal._update`: store the
new value and raise the dirty flag. -/
def MutableSignal.set_value (s : MutableSignal) (v : Int) : MutableSignal :=
  { s with value := some v, modified := true }

/-- Model of the `Network` state: the `graph` object is split into its node
table (`graph.add_node(node_id, evt)` entries, in insertion order) and its edge
list (in insertion order); `activation_flags`, `current_id` and `node_id_map`
are as in `Network.__init__`. -/
structure Network where
  graph_nodes : List (Nat × Nat)
  edges : List (Nat × Nat)
  activation_flags : List (Nat × Bool)
  current_id : Nat
  node_id_map : List (Nat × Nat)
deriving DecidableEq, Repr

/-- Model of `Network.__init__`: empty graph, no flags, id counter at zero. -/
def Network.empty : Network := ⟨[], [], [], 0, []⟩

/-- Model of `Network.__next_id`: increment the counter and return it. -/
def Network.next_id (net : Network) : Nat × Network :=
  (net.current_id + 1, { net with current_id := net.current_id + 1 })

/-- Model of `Network.attach`: a no-op when the node is already in
`node_id_map`; otherwise allocate the next id, record it in `node_id_map` and
add the node to the graph. -/
def Network.attach (net : Network) (evt : Nat) : Network :=
  match dictLookup net.node_id_map evt with
  | some _ => net
  | none =>
    let p := net.next_id
    { p.2 with node_id_map := dictInsert p.2.node_id_map evt p.1,
               graph_nodes := p.2.graph_nodes ++ [(p.1, evt)] }

/-- Model of `Network.connect`: set both activation flags to false, attach both
nodes, then add the edge between their ids.  The id lookups are modelled
faithfully as fallible (`d[k]`), though they always succeed after the attaches. -/
def Network.connect (net : Network) (evt1 evt2 : Nat) : Option Network :=
  let n1 := { net with activation_flags := dictInsert net.activation_flags evt1 false }
  let n2 := { n1 with activation_flags := dictInsert n1.activation_flags evt2 false }
  let n3 := (n2.attach evt1).attach evt2
  match dictLookup n3.node_id_map evt1, dictLookup n3.node_id_map evt2 with
  | some id1, some id2 => some { n3 with edges := n3.edges ++ [(id1, id2)] }
  | _, _ => none

/-- Edge removal used by `Network.disconnect` (`graph.del_edge`); the `graph`
library is an external dependency, so removal is modelled as filtering the
edge out (no claim depends on its missing-edge policy, which §9 of the spec
leaves open). -/
def delEdge (edges : List (Nat × Nat)) (id1 id2 : Nat) : List (Nat × Nat) :=
  edges.filter (fun p => !(p.1 == id1 && p.2 == id2))

/-- Model of `Network.disconnect`: delete both activation-flag entries (each a
`del` that raises `KeyError` when absent), then remove the edge between the two
node ids (`self.node_id_map[evt]` raising when the node was never attached). -/
def Network.disconnect (net : Network) (evt1 evt2 : Nat) : Option Network := do
  let f1 ← dictDelete net.activation_flags evt1
  let f2 ← dictDelete f1 evt2
  let id1 ← dictLookup net.node_id_map evt1
  let id2 ← dictLookup net.node_id_map evt2
  some { net with activation_flags := f2, edges := delEdge net.edges id1 id2 }

/-- Model of `Network.has_activated`: dict indexing into `activation_flags`. -/
def Network.has_activated (net : Network) (evt : Nat) : Option Bool :=
  dictLookup net.activation_flags evt

/-- Model of `Network.__clear_activation_flags` (`dict.fromkeys(d, False)`):
same keys, every value false. -/
def clearActivationFlags (flags : List (Nat × Bool)) : List (Nat × Bool) :=
  flags.map (fun p => (p.1, false))

/-- Dependents of a node id in edge-insertion order (`graph.nodes(from_node)`
as the spec requires it to behave: dependents visited in the order their edges
were added). -/
def Network.dependents (net : Network) (node_id : Nat) : List Nat :=
  (net.edges.filter (fun p => p.1 == node_id)).map (fun p => p.2)

/-- Modelled from the spec: `graph.depth_scan`, used by `Network.activate`, is
part of the external `graph` library whose source is not in the repository.
Per §4.1 of the spec it performs a depth-first walk from the root in which
visiting a node invokes the scan callback and descends into the node's
dependents only when the callback returned true, dependents taken in
edge-insertion order, and a node reachable along several paths is visited once
per path.  The callback threads a state `σ`; `fuel` bounds the recursion depth
and is exact whenever it is at least the longest path length (always true for
the acyclic graphs of the claims, where it is instantiated with the node
count). -/
def depthScan {σ : Type} (deps : Nat → List Nat) (scan : Nat → σ → Bool × σ) :
    Nat → Nat → σ → σ
  | 0, _, st => st
  | fuel + 1, node_id, st =>
    let r := scan node_id st
    if r.1 then
      (deps node_id).foldl (fun acc dep => depthScan deps scan fuel dep acc) r.2
    else r.2

/-- Model of `Network.activate`: clear every per-cycle activation flag, then
depth-scan from the activated node; the `scan_nodes` callback marks the visited
node's flag true and invokes its `on_activate` behaviour `beh` (the node
behaviours thread a caller-supplied state `St`).  Returns `none` when the node
is not attached (`self.node_id_map[evt]` raises `KeyError`).  The inner
`graph.node(node_id)` lookup always succeeds for ids produced by `attach`; the
unreachable `none` branch conservatively stops the walk. -/
def Network.activate {St : Type} (net : Network) (beh : Nat → St → Bool × St)
    (evt : Nat) (st : St) : Option (Network × St) :=
  let cleared := { net with activation_flags := clearActivationFlags net.activation_flags }
  match dictLookup cleared.node_id_map evt with
  | none => none
  | some root =>
    let scan : Nat → (List (Nat × Bool) × St) → Bool × (List (Nat × Bool) × St) :=
      fun node_id acc =>
        match dictLookup cleared.graph_nodes node_id with
        | none => (false, acc)
        | some current_evt =>
          let flags := dictInsert acc.1 current_evt true
          let r := beh current_evt acc.2
          (r.1, (flags, r.2))
    let res := depthScan cleared.dependents scan cleared.graph_nodes.length root
      (cleared.activation_flags, st)
    some ({ cleared with activation_flags := res.1 }, res.2)

/-- Node behaviour used to observe activation order: every node appends its
handle to the trace; `ret` gives each node's `on_activate` return value. -/
def traceBeh (ret : Nat → Bool) : Nat → List Nat → Bool × List Nat :=
  fun n tr => (ret n, tr ++ [n])

/-- The network `a → b → c` wired by two `Network.connect` calls. -/
def chainNet (a b c : Nat) : Option Network :=
  (Network.empty.connect a b).bind (fun n => n.connect b c)

/-- Model of `HistoricalEvent`: timestamp, insertion-sequence cycle, action.
The action payload is a caller-chosen data value standing for the stored
closure. -/
structure HistoricalEvent (A : Type) where
  time_millis : Int
  cycle : Nat
  action : A
deriving DecidableEq, Repr

/-- Model of `HistoricalEvent.get_time_millis`. -/
def HistoricalEvent.get_time_millis {A : Type} (e : HistoricalEvent A) : Int :=
  e.time_millis

/-- Model of `HistoricalEvent.get_cycle`. -/
def HistoricalEvent.get_cycle {A : Type} (e : HistoricalEvent A) : Nat :=
  e.cycle

/-- Model of `HistoricalEvent.__eq__`: equal timestamp and equal cycle. -/
def HistoricalEvent.eq {A : Type} (x y : HistoricalEvent A) : Bool :=
  decide (x.get_time_millis = y.get_time_millis) && decide (x.get_cycle = y.get_cycle)

/-- Model of `HistoricalEvent.__ne__`: the source requires *both* the timestamp
and the cycle to differ. -/
def HistoricalEvent.ne {A : Type} (x y : HistoricalEvent A) : Bool :=
  decide (x.get_time_millis ≠ y.get_time_millis) && decide (x.get_cycle ≠ y.get_cycle)

/-- Model of `HistoricalEvent.__lt__`: lexicographic on (timestamp, cycle). -/
def HistoricalEvent.lt {A : Type} (x y : HistoricalEvent A) : Bool :=
  if x.get_time_millis < y.get_time_millis then true
  else if x.get_time_millis > y.get_time_millis then false
  else decide (x.get_cycle < y.get_cycle)

/-- Model of `PriorityQueue.get_nowait` over the event queue: remove a minimal
event with respect to `HistoricalEvent.lt`, ties resolved to the
earliest-queued (the tie case never arises in reachable queues because
`__create_event` assigns a distinct cycle to every event, making the heap
minimum unique). -/
def popMin {A : Type} :
    List (HistoricalEvent A) → Option (HistoricalEvent A × List (HistoricalEvent A))
  | [] => none
  | e :: es =>
    match popMin es with
    | none => some (e, [])
    | some (m, rest) =>
      if HistoricalEvent.lt m e then some (m, e :: rest) else some (e, es)

/-- Model of the `HistoricNetworkScheduler` state: the priority queue is a bag
of pending events (popped via `popMin`), with window bounds, current time and
the insertion-sequence counter.  The generator list is omitted: it is empty in
every modelled scenario, in which case `run` skips the generator phase. -/
structure HistoricNetworkScheduler (A : Type) where
  event_queue : List (HistoricalEvent A)
  start_time : Int
  end_time : Int
  now : Int
  cycle : Nat
deriving DecidableEq, Repr

/-- Model of `HistoricNetworkScheduler.__init__`: empty queue, `now` initialised
to `start_time`, cycle counter zero. -/
def HistoricNetworkScheduler.init {A : Type} (start_time_millis end_time_millis : Int) :
    HistoricNetworkScheduler A :=
  ⟨[], start_time_millis, end_time_millis, start_time_millis, 0⟩

/-- Model of `HistoricNetworkScheduler.get_time`. -/
def HistoricNetworkScheduler.get_time {A : Type} (s : HistoricNetworkScheduler A) : Int :=
  s.now

/-- Model of `HistoricNetworkScheduler.get_start_time`. -/
def HistoricNetworkScheduler.get_start_time {A : Type} (s : HistoricNetworkScheduler A) : Int :=
  s.start_time

/-- Model of `HistoricNetworkScheduler.get_end_time`. -/
def HistoricNetworkScheduler.get_end_time {A : Type} (s : HistoricNetworkScheduler A) : Int :=
  s.end_time

/-- Model of `HistoricNetworkScheduler.__create_event`: increment the cycle
counter and build the event with it. -/
def HistoricNetworkScheduler.create_event {A : Type} (s : HistoricNetworkScheduler A)
    (event_time : Int) (action : A) : HistoricalEvent A × HistoricNetworkScheduler A :=
  (⟨event_time, s.cycle + 1, action⟩, { s with cycle := s.cycle + 1 })

/-- Model of `HistoricNetworkScheduler.schedule` (and the shared shape of every
offset-relative `schedule_*`): event time is `get_time() + offset`, the created
event goes into the queue. -/
def HistoricNetworkScheduler.schedule {A : Type} (s : HistoricNetworkScheduler A)
    (action : A) (offset_millis : Int) : HistoricNetworkScheduler A :=
  let p := s.create_event (s.get_time + offset_millis) action
  { p.2 with event_queue := p.2.event_queue ++ [p.1] }

/-- Model of `HistoricNetworkScheduler.schedule_at` (and the shared shape of
every absolute-time `schedule_*_at`): event time is the given timestamp. -/
def HistoricNetworkScheduler.schedule_at {A : Type} (s : HistoricNetworkScheduler A)
    (action : A) (time_millis : Int) : HistoricNetworkScheduler A :=
  let p := s.create_event time_millis action
  { p.2 with event_queue := p.2.event_queue ++ [p.1] }

/-- Action language for the scheduler scenarios: the closures stored by
`schedule_event[_at]` (`lambda: self.network.activate(evt)`) and
`schedule_update[_at]` (`set_and_activate`: set the signal's value, then
activate the signal). -/
inductive HAction where
  | act (evt : Nat)
  | update (sig : Nat) (v : Int)
deriving DecidableEq, Repr

/-- Model of `HistoricNetworkScheduler.schedule_event`. -/
def HistoricNetworkScheduler.schedule_event (s : HistoricNetworkScheduler HAction)
    (evt : Nat) (offset_millis : Int) : HistoricNetworkScheduler HAction :=
  s.schedule (HAction.act evt) offset_millis

/-- Model of `HistoricNetworkScheduler.schedule_event_at`. -/
def HistoricNetworkScheduler.schedule_event_at (s : HistoricNetworkScheduler HAction)
    (evt : Nat) (time_millis : Int) : HistoricNetworkScheduler HAction :=
  s.schedule_at (HAction.act evt) time_millis

/-- Model of `HistoricNetworkScheduler.schedule_update`. -/
def HistoricNetworkScheduler.schedule_update (s : HistoricNetworkScheduler HAction)
    (sig : Nat) (v : Int) (offset_millis : Int) : HistoricNetworkScheduler HAction :=
  s.schedule (HAction.update sig v) offset_millis

/-- Model of `HistoricNetworkScheduler.schedule_update_at`. -/
def HistoricNetworkScheduler.schedule_update_at (s : HistoricNetworkScheduler HAction)
    (sig : Nat) (v : Int) (time_millis : Int) : HistoricNetworkScheduler HAction :=
  s.schedule_at (HAction.update sig v) time_millis

/-- Model of the pop/execute loop of `HistoricNetworkScheduler.run`: pop the
earliest event; on an empty queue return; past `end_time` return (the event
and the rest of the queue are abandoned); before `start_time` discard and
continue; otherwise set `now` to the event's timestamp and run its action via
the interpretation `ex` (which receives the just-set `now`).  Executed events
are additionally collected in the trace `tr`, mirroring exactly the calls the
loop makes to `event.action()`.  None of the modelled actions schedule, so the
initial queue length is exact fuel (each iteration pops one event). -/
def runLoop {A σ : Type} (ex : Int → A → σ → σ) :
    Nat → HistoricNetworkScheduler A → σ → List (HistoricalEvent A) →
    HistoricNetworkScheduler A × σ × List (HistoricalEvent A)
  | 0, s, st, tr => (s, st, tr)
  | fuel + 1, s, st, tr =>
    match popMin s.event_queue with
    | none => (s, st, tr)
    | some (e, rest) =>
      if s.end_time < e.time_millis then ({ s with event_queue := rest }, st, tr)
      else if e.time_millis < s.start_time then
        runLoop ex fuel { s with event_queue := rest } st tr
      else
        runLoop ex fuel { s with event_queue := rest, now := e.time_millis }
          (ex e.time_millis e.action st) (tr ++ [e])

/-- Model of `HistoricNetworkScheduler.run` with no registered generators (no
claim registers any): reset `now` to `start_time`, then drain the queue. -/
def HistoricNetworkScheduler.run {A σ : Type} (s : HistoricNetworkScheduler A)
    (ex : Int → A → σ → σ) (st : σ) :
    HistoricNetworkScheduler A × σ × List (HistoricalEvent A) :=
  runLoop ex s.event_queue.length { s with now := s.start_time } st []

/-- Effects `RealtimeNetworkScheduler._schedule` can produce: enqueue the
producer callback immediately (`loop.call_soon_threadsafe`) or arm a timer
(`loop.call_later`). -/
inductive RtEffect where
  | call_soon
  | call_later (delay_millis : Int)
deriving DecidableEq, Repr

/-- Error raised by `RealtimeNetworkScheduler._schedule`: the `ValueError`
for scheduling in the past. -/
inductive RtError where
  | schedule_in_past
deriving DecidableEq, Repr

/-- Model of `RealtimeNetworkScheduler._schedule`'s control decision, the
funnel of every real-time `schedule_*` call: offset 0 enqueues immediately, a
negative offset raises `ValueError` with no effect (no timer armed, nothing
enqueued), a positive offset arms a timer for `offset` milliseconds. -/
def RealtimeNetworkScheduler.schedule_decision (offset_millis : Int) :
    Except RtError RtEffect :=
  if offset_millis = 0 then Except.ok RtEffect.call_soon
  else if offset_millis < 0 then Except.error RtError.schedule_in_past
  else Except.ok (RtEffect.call_later offset_millis)

/-- Model of the serial drain loop of `ExecutionQueueThread.run` over the
callbacks enqueued while the worker is running, in arrival order.  A callback
is a state transformer that may also raise (`σ → σ × Option E`; the post-state
reflects any mutation made before the raise).  The loop runs each callback in
turn; a raised error is caught and appended to the log of `logger.error`
calls, and the loop proceeds to the next callback. -/
def ExecutionQueueThread.runSteps {σ E : Type} :
    List (σ → σ × Option E) → σ → List E → σ × List E
  | [], st, log => (st, log)
  | r :: rest, st, log =>
    let p := r st
    match p.2 with
    | none => ExecutionQueueThread.runSteps rest p.1 log
    | some e => ExecutionQueueThread.runSteps rest p.1 (log ++ [e])

/-- Sequential effect of executing *every* callback in order, regardless of
which of them raise — the behaviour the spec demands of the worker. -/
def runAllEffects {σ E : Type} (rs : List (σ → σ × Option E)) (st : σ) : σ :=
  rs.foldl (fun s r => (r s).1) st

/-- Errors raised along the way when every callback executes in order. -/
def collectErrors {σ E : Type} : List (σ → σ × Option E) → σ → List E
  | [], _ => []
  | r :: rest, st => (r st).2.toList ++ collectErrors rest (r st).1

/-- Handle of the `MutableSignal` in the replay scenarios. -/
def sigNode : Nat := 1

/-- Handle of the `RecordEventTime` node of `test_historic_scheduler1..4`: its
`on_activate` appends `scheduler.get_time()` to the run-time log and returns
false. -/
def recNode : Nat := 2

/-- Node behaviours for the replay scenarios, parametrised by the current
scheduler time `now`: the recorder appends `now` to the log and returns false;
the signal node runs `MutableSignal.on_activate`; the threaded state is the
signal state paired with the log. -/
def recBeh (now : Int) : Nat → MutableSignal × List Int → Bool × (MutableSignal × List Int) :=
  fun n w =>
    if n = recNode then (false, (w.1, w.2 ++ [now]))
    else if n = sigNode then
      let r := w.1.on_activate
      (r.1, (r.2, w.2))
    else (true, w)

/-- World threaded through a historical run in the replay scenarios: the
network, the scenario's `MutableSignal` and the recorded run times. -/
structure RecWorld where
  net : Network
  sig : MutableSignal
  log : List Int
deriving DecidableEq, Repr

/-- Interpretation of the stored closures for the replay scenarios:
`HAction.act evt` runs `network.activate(evt)`; `HAction.update sig v` runs
`set_and_activate` (set the signal's value, then `network.activate(signal)`).
The `none` branches of `activate` are unreachable here (every scheduled node
is attached). -/
def execH (now : Int) (a : HAction) (w : RecWorld) : RecWorld :=
  match a with
  | HAction.act evt =>
    match w.net.activate (recBeh now) evt (w.sig, w.log) with
    | some r => ⟨r.1, r.2.1, r.2.2⟩
    | none => w
  | HAction.update evt v =>
    let s1 := w.sig.set_value v
    match w.net.activate (recBeh now) evt (s1, w.log) with
    | some r => ⟨r.1, r.2.1, r.2.2⟩
    | none => ⟨w.net, s1, w.log⟩

/-- Raw scheduling times of the replay scenario. -/
def c3Times : List Int := [-1, 500, 0, 1500, 1000]

/-- World of `test_historic_scheduler1`/`2`: the recorder attached on its own. -/
def recWorldSingle : RecWorld :=
  ⟨Network.empty.attach recNode, MutableSignal.init none, []⟩

/-- World of `test_historic_scheduler3`/`4`: signal connected to the recorder. -/
def recWorldConnected : RecWorld :=
  ⟨(Network.empty.connect sigNode recNode).getD Network.empty, MutableSignal.init none, []⟩

/-- Scenario of `test_historic_scheduler1`: window `[0, 1000]`, recorder events
scheduled by absolute time. -/
def c3SchedulerAt : HistoricNetworkScheduler HAction :=
  c3Times.foldl (fun s t => s.schedule_event_at recNode t) (HistoricNetworkScheduler.init 0 1000)

/-- Scenario of `test_historic_scheduler2`: same times as offsets from the
initial `now` (= `start_time` = 0). -/
def c3SchedulerOffset : HistoricNetworkScheduler HAction :=
  c3Times.foldl (fun s t => s.schedule_event recNode t) (HistoricNetworkScheduler.init 0 1000)

/-- Scenario of `test_historic_scheduler3`: signal updates by offset. -/
def c3SchedulerUpdate : HistoricNetworkScheduler HAction :=
  c3Times.foldl (fun s t => s.schedule_update sigNode 1 t) (HistoricNetworkScheduler.init 0 1000)

/-- Scenario of `test_historic_scheduler4`: signal updates by absolute time. -/
def c3SchedulerUpdateAt : HistoricNetworkScheduler HAction :=
  c3Times.foldl (fun s t => s.schedule_update_at sigNode 1 t) (HistoricNetworkScheduler.init 0 1000)

/-- Run times recorded by a replay of the given scheduler over the given world. -/
def runTimes (s : HistoricNetworkScheduler HAction) (w : RecWorld) : List Int :=
  (s.run execH w).2.1.log

/-- Interpretation that tags each executed action with its handle and execution
time, used to observe same-timestamp execution order. -/
def execMark (now : Int) (a : HAction) (log : List (Nat × Int)) : List (Nat × Int) :=
  match a with
  | HAction.act evt => log ++ [(evt, now)]
  | HAction.update evt _ => log ++ [(evt, now)]

/-- Two events scheduled at the identical timestamp 500: node 7 first, node 8
second. -/
def c4Scheduler : HistoricNetworkScheduler HAction :=
  ((HistoricNetworkScheduler.init 0 1000).schedule_event_at 7 500).schedule_event_at 8 500

/-- The same two events scheduled in the opposite call order. -/
def c4SchedulerRev : HistoricNetworkScheduler HAction :=
  ((HistoricNetworkScheduler.init 0 1000).schedule_event_at 8 500).schedule_event_at 7 500

/-- Operations driving a `MutableSignal` from outside: a `set_value` call or an
`on_activate` call (as made by a propagation cycle reaching the signal). -/
inductive SigOp where
  | set (v : Int)
  | act
deriving DecidableEq, Repr

/-- Run a sequence of operations against a signal, collecting the value
returned by each `on_activate` call. -/
def runSig : MutableSignal → List SigOp → MutableSignal × List Bool
  | s, [] => (s, [])
  | s, SigOp.set v :: rest => runSig (s.set_value v) rest
  | s, SigOp.act :: rest =>
    let r := s.on_activate
    let q := runSig r.2 rest
    (q.1, r.1 :: q.2)

/-- Expected `on_activate` results under the claimed edge-triggering law: an
activation returns true exactly when some `set_value` happened since the
previous activation (equivalently, since the last true return: a false return
certifies that no set had happened in between); `d` says whether a set is
pending at the start of the remaining operations. -/
def edgeTriggerSpec : Bool → List SigOp → List Bool
  | _, [] => []
  | _, SigOp.set _ :: rest => edgeTriggerSpec true rest
  | d, SigOp.act :: rest => d :: edgeTriggerSpec false rest

/-- Trace of `on_activate` calls made by `Network.activate(a)` on the chain
`a → b → c`, in call order (`none` when wiring or activation raises). -/
def chainTrace (a b c : Nat) (ret : Nat → Bool) : Option (List Nat) :=
  (chainNet a b c).bind (fun net => (net.activate (traceBeh ret) a []).map (fun r => r.2))

/-- Well-formedness of the id assignment: all assigned node ids are pairwise
distinct and bounded by the id counter.  This holds for the empty network and
is preserved by every operation that allocates ids. -/
def Network.wf (net : Network) : Prop :=
  net.node_id_map.Pairwise (fun p q => p.2 ≠ q.2) ∧
    ∀ p ∈ net.node_id_map, p.2 ≤ net.current_id

/-- Intermediate state of `Network.connect` after its two flag assignments
(`self.activation_flags[evt1] = False; self.activation_flags[evt2] = False`),
named so the proofs can speak about the body of `connect`. -/
def flagsReset (net : Network) (a b : Nat) : Network :=
  { net with activation_flags :=
      dictInsert (dictInsert net.activation_flags a false) b false }

theorem dictLookup_insert_self {α : Type} (d : List (Nat × α)) (k : Nat) (v : α) :
    dictLookup (dictInsert d k v) k = some v := by
  induction d with
  | nil => simp [dictInsert, dictLookup]
  | cons p rest ih =>
    obtain ⟨k0, v0⟩ := p
    by_cases h : k0 = k
    · subst h; simp [dictInsert, dictLookup]
    · simp [dictInsert, dictLookup, h, ih]

theorem dictLookup_insert_ne {α : Type} (d : List (Nat × α)) (k k' : Nat) (v : α)
    (h : k ≠ k') : dictLookup (dictInsert d k v) k' = dictLookup d k' := by
  induction d with
  | nil => simp [dictInsert, dictLookup, h]
  | cons p rest ih =>
    obtain ⟨k0, v0⟩ := p
    by_cases h0 : k0 = k
    · subst h0; simp [dictInsert, dictLookup, h]
    · simp [dictInsert, dictLookup, h0, ih]

theorem dictInsert_of_none {α : Type} (d : List (Nat × α)) (k : Nat) (v : α)
    (h : dictLookup d k = none) : dictInsert d k v = d ++ [(k, v)] := by
  induction d with
  | nil => simp [dictInsert]
  | cons p rest ih =>
    obtain ⟨k0, v0⟩ := p
    by_cases h0 : k0 = k
    · simp [dictLookup, h0] at h
    · simp [dictLookup, h0] at h
      simp [dictInsert, h0, ih h]

theorem dictDelete_of_none {α : Type} (d : List (Nat × α)) (k : Nat)
    (h : dictLookup d k = none) : dictDelete d k = none := by
  induction d with
  | nil => simp [dictDelete]
  | cons p rest ih =>
    obtain ⟨k0, v0⟩ := p
    by_cases h0 : k0 = k
    · simp [dictLookup, h0] at h
    · simp [dictLookup, h0] at h
      simp [dictDelete, h0, ih h]

theorem dictDelete_lookup_none {α : Type} (d : List (Nat × α)) (o k : Nat)
    (h : dictLookup d k = none) :
    ∀ f, dictDelete d o = some f → dictLookup f k = none := by
  induction d with
  | nil => intro f hf; simp [dictDelete] at hf
  | cons p rest ih =>
    obtain ⟨k0, v0⟩ := p
    intro f hf
    by_cases hk : k0 = k
    · simp [dictLookup, hk] at h
    · simp [dictLookup, hk] at h
      by_cases ho : k0 = o
      · simp [dictDelete, ho] at hf
        subst hf; exact h
      · simp [dictDelete, ho] at hf
        obtain ⟨g, hg, rfl⟩ := hf
        simp [dictLookup, hk, ih h g hg]

/-- C10: two `HistoricalEvent`s with equal `time_millis` but different `cycle`
satisfy `__eq__ = False` and also `__ne__ = False` — `__ne__` demands both
fields to differ, so it is not the logical negation of `__eq__`. -/
theorem historical_event_ne_not_negation_of_eq {A : Type} (x y : HistoricalEvent A)
    (ht : x.time_millis = y.time_millis) (hc : x.cycle ≠ y.cycle) :
    HistoricalEvent.eq x y = false ∧ HistoricalEvent.ne x y = false := by
  simp [HistoricalEvent.eq, HistoricalEvent.ne, HistoricalEvent.get_time_millis,
    HistoricalEvent.get_cycle, ht, hc]

/-- Witness for C10 at the concrete events (5, 1) and (5, 2). -/
theorem historical_event_ne_not_negation_of_eq_witness :
    (5 : Int) = 5 ∧ (1 : Nat) ≠ 2 ∧
    HistoricalEvent.eq (HistoricalEvent.mk 5 1 0 : HistoricalEvent Nat)
      (HistoricalEvent.mk 5 2 0) = false ∧
    HistoricalEvent.ne (HistoricalEvent.mk 5 1 0 : HistoricalEvent Nat)
      (HistoricalEvent.mk 5 2 0) = false := by
  have h := historical_event_ne_not_negation_of_eq
    (HistoricalEvent.mk 5 1 0 : HistoricalEvent Nat) (HistoricalEvent.mk 5 2 0)
    rfl (by decide)
  exact ⟨rfl, by decide, h.1, h.2⟩

/-- C9 counterexample: a historical scheduler over the window `[5, 100]` has
`get_time() = 5 ≠ 0` before `run()` starts (the constructor sets `now` to
`start_time`, not to zero). -/
theorem historic_get_time_before_run_nonzero :
    (HistoricNetworkScheduler.init 5 100 : HistoricNetworkScheduler Unit).get_time ≠ 0 := by
  decide

/-- C9 amended: before `run()` starts advancing time, `get_time()` returns the
configured `start_time` (zero exactly when the window starts at zero). -/
theorem historic_get_time_before_run (A : Type) (start_millis end_millis : Int) :
    (HistoricNetworkScheduler.init start_millis end_millis :
      HistoricNetworkScheduler A).get_time = start_millis := rfl

theorem runSig_eq_edgeTriggerSpec (ops : List SigOp) : ∀ s : MutableSignal,
    (runSig s ops).2 = edgeTriggerSpec s.modified ops := by
  induction ops with
  | nil => intro s; rfl
  | cons op rest ih =>
    intro s
    cases op with
    | set v => simpa [runSig, edgeTriggerSpec, MutableSignal.set_value] using ih (s.set_value v)
    | act =>
      cases hm : s.modified with
      | true => simp [runSig, edgeTriggerSpec, MutableSignal.on_activate, hm, ih]
      | false => simp [runSig, edgeTriggerSpec, MutableSignal.on_activate, hm, ih]

/-- C2: `MutableSignal.on_activate` returns true and clears the dirty flag
exactly on activations where the flag was true, and returns false with no
state change when the flag is false; consequently, over any operation
sequence, an activation returns true exactly when some `set_value` happened
since the previous activation (the edge-triggering law, stated by
`edgeTriggerSpec`). -/
theorem mutable_signal_edge_triggered (s : MutableSignal) :
    (s.modified = true → s.on_activate = (true, { s with modified := false })) ∧
    (s.modified = false → s.on_activate = (false, s)) ∧
    ∀ ops : List SigOp, (runSig s ops).2 = edgeTriggerSpec s.modified ops := by
  refine ⟨fun h => by simp [MutableSignal.on_activate, h],
          fun h => by simp [MutableSignal.on_activate, h],
          fun ops => runSig_eq_edgeTriggerSpec ops s⟩

/-- Witness for C2: a dirty signal activates to true once, and the trace
set–activate–activate yields results true, false. -/
theorem mutable_signal_edge_triggered_witness :
    (MutableSignal.mk (some 3) true).modified = true ∧
    (MutableSignal.mk (some 3) true).on_activate = (true, MutableSignal.mk (some 3) false) ∧
    (runSig (MutableSignal.mk none false) [SigOp.set 1, SigOp.act, SigOp.act]).2 =
      edgeTriggerSpec false [SigOp.set 1, SigOp.act, SigOp.act] :=
  ⟨rfl, (mutable_signal_edge_triggered (MutableSignal.mk (some 3) true)).1 rfl,
    (mutable_signal_edge_triggered (MutableSignal.mk none false)).2.2 _⟩

/-- C3: against the run window `[0, 1000]`, scheduling the five recorder events
at effective times -1, 500, 0, 1500, 1000 yields the executed `get_time()`
sequence `[0, 500, 1000]`, for the absolute-time and offset-relative APIs and
for both plain node activation and signal-update scheduling. -/
theorem historic_window_replay_order :
    runTimes c3SchedulerAt recWorldSingle = [0, 500, 1000] ∧
    runTimes c3SchedulerOffset recWorldSingle = [0, 500, 1000] ∧
    runTimes c3SchedulerUpdate recWorldConnected = [0, 500, 1000] ∧
    runTimes c3SchedulerUpdateAt recWorldConnected = [0, 500, 1000] :=
  ⟨by decide, by decide, by decide, by decide⟩

/-- C6: the serial worker loop runs every enqueued callback in order even when
some raise: the final state is the fold of all callback effects and every
raised error is caught and logged, never terminating the drain. -/
theorem worker_survives_callback_errors {σ E : Type}
    (rs : List (σ → σ × Option E)) (st : σ) (log : List E) :
    ExecutionQueueThread.runSteps rs st log = (runAllEffects rs st, log ++ collectErrors rs st) := by
  induction rs generalizing st log with
  | nil => simp [ExecutionQueueThread.runSteps, runAllEffects, collectErrors]
  | cons r rest ih =>
    cases he : (r st).2 with
    | none => simp [ExecutionQueueThread.runSteps, runAllEffects, collectErrors, he, ih]
    | some e => simp [ExecutionQueueThread.runSteps, runAllEffects, collectErrors, he, ih]

theorem historicalEvent_lt_iff {A : Type} (x y : HistoricalEvent A) :
    HistoricalEvent.lt x y = true ↔
      x.time_millis < y.time_millis ∨
        (x.time_millis = y.time_millis ∧ x.cycle < y.cycle) := by
  unfold HistoricalEvent.lt HistoricalEvent.get_time_millis HistoricalEvent.get_cycle
  split_ifs with h1 h2 <;> simp <;> omega

theorem historicalEvent_lt_irrefl {A : Type} (x : HistoricalEvent A) :
    HistoricalEvent.lt x x = false := by
  rw [← Bool.not_eq_true, historicalEvent_lt_iff]
  omega

theorem historicalEvent_lt_asymm {A : Type} (x y : HistoricalEvent A)
    (h : HistoricalEvent.lt x y = true) : HistoricalEvent.lt y x = false := by
  rw [historicalEvent_lt_iff] at h
  rw [← Bool.not_eq_true, historicalEvent_lt_iff]
  omega

theorem historicalEvent_lt_false_trans {A : Type} (x m y : HistoricalEvent A)
    (h1 : HistoricalEvent.lt x m = false) (h2 : HistoricalEvent.lt m y = false) :
    HistoricalEvent.lt x y = false := by
  rw [← Bool.not_eq_true, historicalEvent_lt_iff] at h1 h2 ⊢
  omega

theorem popMin_cons_ne_none {A : Type} (a : HistoricalEvent A)
    (as : List (HistoricalEvent A)) : popMin (a :: as) ≠ none := by
  simp only [popMin]
  cases popMin as with
  | none => simp
  | some p =>
    obtain ⟨m, r⟩ := p
    by_cases hl : HistoricalEvent.lt m a = true <;> simp [hl]

theorem popMin_min {A : Type} (q : List (HistoricalEvent A)) :
    ∀ e rest, popMin q = some (e, rest) →
      e ∈ q ∧ ∀ x ∈ q, HistoricalEvent.lt x e = false := by
  induction q with
  | nil => intro e rest h; simp [popMin] at h
  | cons e0 es ih =>
    intro e rest h
    cases hp : popMin es with
    | none =>
      simp only [popMin, hp] at h
      simp at h
      obtain ⟨rfl, rfl⟩ := h
      refine ⟨List.mem_cons_self _ _, ?_⟩
      intro x hx
      cases es with
      | nil =>
        simp at hx; subst hx; exact historicalEvent_lt_irrefl _
      | cons a as => exact absurd hp (popMin_cons_ne_none a as)
    | some p =>
      obtain ⟨m, rest2⟩ := p
      simp only [popMin, hp] at h
      by_cases hlt : HistoricalEvent.lt m e0 = true
      · rw [if_pos hlt] at h
        simp at h
        obtain ⟨rfl, rfl⟩ := h
        have ihm := ih m rest2 hp
        refine ⟨List.mem_cons_of_mem _ ihm.1, ?_⟩
        intro x hx
        rcases List.mem_cons.mp hx with rfl | hx2
        · exact historicalEvent_lt_asymm _ _ hlt
        · exact ihm.2 x hx2
      · rw [if_neg hlt] at h
        simp at h
        obtain ⟨rfl, rfl⟩ := h
        simp only [Bool.not_eq_true] at hlt
        have ihm := ih m rest2 hp
        refine ⟨List.mem_cons_self _ _, ?_⟩
        intro x hx
        rcases List.mem_cons.mp hx with rfl | hx2
        · exact historicalEvent_lt_irrefl _
        · exact historicalEvent_lt_false_trans _ _ _ (ihm.2 x hx2) hlt

/-- C4: every scheduling call is assigned the strictly increased cycle counter
of the scheduler as its insertion sequence; the queue pops a minimum with
respect to the lexicographic (timestamp, insertion sequence) order; hence two
events scheduled for the identical timestamp 500 execute in the order the
scheduling calls were made, for either call order. -/
theorem historic_tie_break_insertion_order :
    (∀ (A : Type) (s : HistoricNetworkScheduler A) (a : A) (t : Int),
      (s.schedule_at a t).cycle = s.cycle + 1 ∧
      (s.schedule_at a t).event_queue =
        s.event_queue ++ [HistoricalEvent.mk t (s.cycle + 1) a]) ∧
    (∀ (A : Type) (q : List (HistoricalEvent A)) (e : HistoricalEvent A)
      (rest : List (HistoricalEvent A)), popMin q = some (e, rest) →
        e ∈ q ∧ ∀ x ∈ q, HistoricalEvent.lt x e = false) ∧
    (c4Scheduler.run execMark ([] : List (Nat × Int))).2.1 = [(7, 500), (8, 500)] ∧
    (c4SchedulerRev.run execMark ([] : List (Nat × Int))).2.1 = [(8, 500), (7, 500)] := by
  refine ⟨fun A s a t => ⟨rfl, rfl⟩, fun A q e rest h => popMin_min q e rest h,
    by decide, by decide⟩

/-- Witness for C4: popping the two-element queue of equal-timestamp events
returns the one scheduled first (cycle 1), and the later one (cycle 2) does not
compare below it. -/
theorem historic_tie_break_insertion_order_witness :
    popMin [HistoricalEvent.mk (500 : Int) 1 (0 : Nat), HistoricalEvent.mk 500 2 0] =
      some (HistoricalEvent.mk (500 : Int) 1 (0 : Nat), [HistoricalEvent.mk 500 2 0]) ∧
    HistoricalEvent.lt (HistoricalEvent.mk (500 : Int) 2 (0 : Nat))
      (HistoricalEvent.mk 500 1 0) = false := by
  have h := historic_tie_break_insertion_order.2.1 Nat
    [HistoricalEvent.mk (500 : Int) 1 (0 : Nat), HistoricalEvent.mk 500 2 0]
    (HistoricalEvent.mk (500 : Int) 1 (0 : Nat)) [HistoricalEvent.mk 500 2 0] (by decide)
  exact ⟨by decide, h.2 _ (by simp)⟩

theorem runLoop_trace_in_window {A σ : Type} (ex : Int → A → σ → σ) :
    ∀ (fuel : Nat) (s : HistoricNetworkScheduler A) (st : σ)
      (tr : List (HistoricalEvent A)) (e : HistoricalEvent A),
      e ∈ (runLoop ex fuel s st tr).2.2 →
      e ∈ tr ∨ (s.start_time ≤ e.time_millis ∧ e.time_millis ≤ s.end_time) := by
  intro fuel
  induction fuel with
  | zero => intro s st tr e h; exact Or.inl h
  | succ n ih =>
    intro s st tr e h
    cases hp : popMin s.event_queue with
    | none =>
      simp only [runLoop, hp] at h
      exact Or.inl h
    | some p =>
      obtain ⟨e0, rest⟩ := p
      simp only [runLoop, hp] at h
      by_cases h1 : s.end_time < e0.time_millis
      · rw [if_pos h1] at h; exact Or.inl h
      · rw [if_neg h1] at h
        by_cases h2 : e0.time_millis < s.start_time
        · rw [if_pos h2] at h
          have := ih _ _ _ _ h
          simpa using this
        · rw [if_neg h2] at h
          have := ih _ _ _ _ h
          rcases this with hin | hw
          · rcases List.mem_append.mp hin with htr | he0
            · exact Or.inl htr
            · simp at he0; subst he0
              exact Or.inr ⟨le_of_not_lt h2, le_of_not_lt h1⟩
          · right; simpa using hw

/-- C5: a real-time scheduling call with a negative computed offset raises the
schedule-in-the-past `ValueError` with no timer armed and nothing enqueued,
while the historical scheduler accepts any scheduling call (the event is
enqueued unconditionally) and `run()` only ever executes events inside the
`[start_time, end_time]` window, so a pre-`start_time` event is silently
discarded without executing. -/
theorem negative_offset_scheduling_asymmetry :
    (∀ offset_millis : Int, offset_millis < 0 →
      RealtimeNetworkScheduler.schedule_decision offset_millis =
        Except.error RtError.schedule_in_past) ∧
    (∀ (A : Type) (s : HistoricNetworkScheduler A) (a : A) (offset_millis : Int),
      (s.schedule a offset_millis).event_queue =
        s.event_queue ++ [HistoricalEvent.mk (s.now + offset_millis) (s.cycle + 1) a]) ∧
    (∀ (A σ : Type) (ex : Int → A → σ → σ) (s : HistoricNetworkScheduler A) (st : σ)
      (e : HistoricalEvent A), e ∈ (s.run ex st).2.2 →
      s.start_time ≤ e.time_millis ∧ e.time_millis ≤ s.end_time) := by
  refine ⟨?_, fun A s a off => rfl, ?_⟩
  · intro off hoff
    unfold RealtimeNetworkScheduler.schedule_decision
    rw [if_neg (by omega), if_pos hoff]
  · intro A σ ex s st e h
    have := runLoop_trace_in_window ex _ _ _ _ e h
    rcases this with hin | hw
    · simp at hin
    · simpa using hw

/-- Witness for C5: offset -5 errors out in real time; in a historical run over
`[0, 1000]` with events scheduled at -1 and 500, the event executed at 500
(which is in the run trace) lies inside the window. -/
theorem negative_offset_scheduling_asymmetry_witness :
    (-5 : Int) < 0 ∧
    RealtimeNetworkScheduler.schedule_decision (-5) =
      Except.error RtError.schedule_in_past ∧
    ((((HistoricNetworkScheduler.init 0 1000).schedule_at () (-1)).schedule_at
        () 500).start_time ≤ (500 : Int) ∧
      (500 : Int) ≤ (((HistoricNetworkScheduler.init 0 1000).schedule_at ()
        (-1)).schedule_at () 500).end_time) := by
  refine ⟨by decide, negative_offset_scheduling_asymmetry.1 (-5) (by decide), ?_⟩
  exact negative_offset_scheduling_asymmetry.2.2 Unit Unit (fun _ _ st => st)
    (((HistoricNetworkScheduler.init 0 1000).schedule_at () (-1)).schedule_at () 500) ()
    (HistoricalEvent.mk 500 2 ()) (by decide)

theorem attach_edges_eq (net : Network) (e : Nat) : (net.attach e).edges = net.edges := by
  cases h : dictLookup net.node_id_map e <;> simp [Network.attach, h, Network.next_id]

theorem attach_flags_eq (net : Network) (e : Nat) :
    (net.attach e).activation_flags = net.activation_flags := by
  cases h : dictLookup net.node_id_map e <;> simp [Network.attach, h, Network.next_id]

theorem attach_current_le (net : Network) (e : Nat) :
    net.current_id ≤ (net.attach e).current_id := by
  cases h : dictLookup net.node_id_map e with
  | some i => simp [Network.attach, h]
  | none =>
    simp only [Network.attach, h, Network.next_id]
    omega

theorem attach_lookup_self (net : Network) (e : Nat) :
    (dictLookup (net.attach e).node_id_map e).isSome = true := by
  cases h : dictLookup net.node_id_map e with
  | some i => simp [Network.attach, h]
  | none => simp [Network.attach, h, Network.next_id, dictLookup_insert_self]

theorem attach_lookup_preserved (net : Network) (e x i : Nat)
    (hx : dictLookup net.node_id_map x = some i) :
    dictLookup (net.attach e).node_id_map x = some i := by
  cases h : dictLookup net.node_id_map e with
  | some j => simpa [Network.attach, h] using hx
  | none =>
    have hne : e ≠ x := by
      rintro rfl; rw [h] at hx; cases hx
    simp [Network.attach, h, Network.next_id, dictLookup_insert_ne _ _ _ _ hne, hx]

theorem attach_lookup_cases (net : Network) (e x i : Nat)
    (hx : dictLookup (net.attach e).node_id_map x = some i) :
    dictLookup net.node_id_map x = some i ∨ net.current_id < i := by
  cases h : dictLookup net.node_id_map e with
  | some j =>
    rw [show net.attach e = net from by simp [Network.attach, h]] at hx
    exact Or.inl hx
  | none =>
    simp only [Network.attach, h, Network.next_id] at hx
    rcases eq_or_ne e x with rfl | hne
    · rw [dictLookup_insert_self] at hx
      simp only [Option.some.injEq] at hx
      omega
    · rw [dictLookup_insert_ne _ _ _ _ hne] at hx
      exact Or.inl hx

theorem attach_wf (net : Network) (e : Nat) (h : net.wf) : (net.attach e).wf := by
  obtain ⟨hpw, hb⟩ := h
  cases hl : dictLookup net.node_id_map e with
  | some i =>
    rw [show net.attach e = net from by simp [Network.attach, hl]]
    exact ⟨hpw, hb⟩
  | none =>
    have hmap : (net.attach e).node_id_map = net.node_id_map ++ [(e, net.current_id + 1)] := by
      simp [Network.attach, hl, Network.next_id, dictInsert_of_none _ _ _ hl]
    have hcur : (net.attach e).current_id = net.current_id + 1 := by
      simp [Network.attach, hl, Network.next_id]
    refine ⟨?_, ?_⟩
    · rw [hmap]
      refine List.pairwise_append.mpr ⟨hpw, List.pairwise_singleton _ _, ?_⟩
      intro p hp q hq
      simp only [List.mem_singleton] at hq
      subst hq
      have := hb p hp
      simp only []
      omega
    · rw [hmap, hcur]
      intro p hp
      rcases List.mem_append.mp hp with h1 | h2
      · exact le_trans (hb p h1) (by omega)
      · simp only [List.mem_singleton] at h2
        subst h2
        simp

theorem attach2_spec (n2 : Network) (a b : Nat) :
    ∃ ida idb,
      dictLookup ((n2.attach a).attach b).node_id_map a = some ida ∧
      dictLookup ((n2.attach a).attach b).node_id_map b = some idb ∧
      ((n2.attach a).attach b).edges = n2.edges ∧
      ((n2.attach a).attach b).activation_flags = n2.activation_flags ∧
      (∀ e i, dictLookup n2.node_id_map e = some i →
        dictLookup ((n2.attach a).attach b).node_id_map e = some i) ∧
      (∀ e i, dictLookup ((n2.attach a).attach b).node_id_map e = some i →
        dictLookup n2.node_id_map e = some i ∨ n2.current_id < i) ∧
      (n2.wf → ((n2.attach a).attach b).wf) := by
  obtain ⟨ida, hida⟩ := Option.isSome_iff_exists.mp (attach_lookup_self n2 a)
  have hida3 := attach_lookup_preserved (n2.attach a) b a ida hida
  obtain ⟨idb, hidb⟩ := Option.isSome_iff_exists.mp (attach_lookup_self (n2.attach a) b)
  refine ⟨ida, idb, hida3, hidb, ?_, ?_, ?_, ?_, ?_⟩
  · rw [attach_edges_eq, attach_edges_eq]
  · rw [attach_flags_eq, attach_flags_eq]
  · intro e i he
    exact attach_lookup_preserved _ b e i (attach_lookup_preserved _ a e i he)
  · intro e i he
    rcases attach_lookup_cases _ b e i he with h1 | h1
    · exact attach_lookup_cases _ a e i h1
    · exact Or.inr (lt_of_le_of_lt (attach_current_le n2 a) h1)
  · exact fun h => attach_wf _ b (attach_wf _ a h)

theorem connect_unfold (net : Network) (a b : Nat) :
    net.connect a b =
      match dictLookup (((flagsReset net a b).attach a).attach b).node_id_map a,
            dictLookup (((flagsReset net a b).attach a).attach b).node_id_map b with
      | some id1, some id2 =>
        some { ((flagsReset net a b).attach a).attach b with
          edges := (((flagsReset net a b).attach a).attach b).edges ++ [(id1, id2)] }
      | _, _ => none := rfl

theorem connect_spec (net : Network) (a b : Nat) :
    (net.connect a b).isSome = true ∧
    ∀ net', net.connect a b = some net' →
      (∃ ida idb, dictLookup net'.node_id_map a = some ida ∧
        dictLookup net'.node_id_map b = some idb ∧
        net'.edges = net.edges ++ [(ida, idb)]) ∧
      dictLookup net'.activation_flags a = some false ∧
      dictLookup net'.activation_flags b = some false ∧
      (∀ e i, dictLookup net.node_id_map e = some i →
        dictLookup net'.node_id_map e = some i) ∧
      (∀ e i, dictLookup net'.node_id_map e = some i →
        dictLookup net.node_id_map e = some i ∨ net.current_id < i) ∧
      (net.wf → net'.wf) := by
  obtain ⟨ida, idb, hida, hidb, hed, hfl, hpres, hcas, hwf⟩ :=
    attach2_spec (flagsReset net a b) a b
  have hconn := connect_unfold net a b
  rw [hida, hidb] at hconn
  constructor
  · rw [hconn]; rfl
  · intro net' h
    rw [hconn] at h
    obtain rfl := Option.some.inj h
    refine ⟨⟨ida, idb, hida, hidb, ?_⟩, ?_, ?_, hpres, hcas, hwf⟩
    · show (((flagsReset net a b).attach a).attach b).edges ++ [(ida, idb)] =
        net.edges ++ [(ida, idb)]
      rw [hed]
      rfl
    · show dictLookup (((flagsReset net a b).attach a).attach b).activation_flags a =
        some false
      rw [hfl]
      show dictLookup (dictInsert (dictInsert net.activation_flags a false) b false) a =
        some false
      rcases eq_or_ne b a with rfl | hba
      · exact dictLookup_insert_self _ _ _
      · rw [dictLookup_insert_ne _ _ _ _ hba]
        exact dictLookup_insert_self _ _ _
    · show dictLookup (((flagsReset net a b).attach a).attach b).activation_flags b =
        some false
      rw [hfl]
      exact dictLookup_insert_self _ _ _

/-- C7 counterexample: `connect` on two never-attached nodes raises no lookup
failure — it succeeds, attaching both nodes and adding the edge (the claim
asserts that `connect` with a never-attached node raises). -/
theorem connect_never_attached_succeeds :
    dictLookup Network.empty.node_id_map 1 = none ∧
    dictLookup Network.empty.node_id_map 2 = none ∧
    Network.empty.connect 1 2 =
      some (Network.mk [(1, 1), (2, 2)] [(1, 2)] [(1, false), (2, false)] 2
        [(1, 1), (2, 2)]) := by
  refine ⟨rfl, rfl, by decide⟩

/-- C7 amended: for every node never previously attached (hence in neither
`node_id_map` nor `activation_flags`), `has_activated` and `disconnect` (in
either argument position) raise lookup failures, and `activate` on the
detached node raises a lookup failure; `connect`, however, never raises — it
attaches unattached nodes as a side effect. -/
theorem unattached_node_lookup_failures (net : Network) (evt other : Nat)
    (hmap : dictLookup net.node_id_map evt = none)
    (hflag : dictLookup net.activation_flags evt = none) :
    net.has_activated evt = none ∧
    net.disconnect evt other = none ∧
    net.disconnect other evt = none ∧
    (∀ (St : Type) (beh : Nat → St → Bool × St) (st : St),
      net.activate beh evt st = none) ∧
    (net.connect evt other).isSome = true ∧
    (net.connect other evt).isSome = true := by
  refine ⟨hflag, ?_, ?_, ?_, (connect_spec net evt other).1, (connect_spec net other evt).1⟩
  · simp [Network.disconnect, dictDelete_of_none _ _ hflag]
  · cases hd : dictDelete net.activation_flags other with
    | none => simp [Network.disconnect, hd]
    | some f =>
      have hf := dictDelete_lookup_none net.activation_flags other evt hflag f hd
      simp [Network.disconnect, hd, dictDelete_of_none _ _ hf]
  · intro St beh st
    simp [Network.activate, hmap]

/-- Witness for C7 on the empty network and the fresh nodes 5 and 6. -/
theorem unattached_node_lookup_failures_witness :
    dictLookup Network.empty.node_id_map 5 = none ∧
    dictLookup Network.empty.activation_flags 5 = none ∧
    Network.empty.has_activated 5 = none ∧
    Network.empty.disconnect 5 6 = none ∧
    Network.empty.disconnect 6 5 = none ∧
    Network.empty.activate (traceBeh (fun _ => true)) 5 ([] : List Nat) = none ∧
    (Network.empty.connect 5 6).isSome = true := by
  have h := unattached_node_lookup_failures Network.empty 5 6 rfl rfl
  exact ⟨rfl, rfl, h.1, h.2.1, h.2.2.1,
    h.2.2.2.1 (List Nat) (traceBeh (fun _ => true)) [], h.2.2.2.2.1⟩

/-- C8: `Network.connect(a, b)` never fails; it leaves both nodes attached
(ids looked up successfully), resets both per-cycle activation flags to false,
and appends the edge between the two assigned ids; `attach` is a no-op on an
already-attached node, ids of attached nodes are unchanged by re-attachment,
any id assigned during the call exceeds the previous counter value (monotonic
assignment), and distinctness of ids (with the counter bounding them) holds
initially and is preserved. -/
theorem connect_attaches_edges_and_resets_flags (net : Network) (a b : Nat) :
    (∀ e, (dictLookup net.node_id_map e).isSome = true → net.attach e = net) ∧
    Network.empty.wf ∧
    (net.connect a b).isSome = true ∧
    ∀ net', net.connect a b = some net' →
      (dictLookup net'.node_id_map a).isSome = true ∧
      (dictLookup net'.node_id_map b).isSome = true ∧
      dictLookup net'.activation_flags a = some false ∧
      dictLookup net'.activation_flags b = some false ∧
      (∃ ida idb, dictLookup net'.node_id_map a = some ida ∧
        dictLookup net'.node_id_map b = some idb ∧
        net'.edges = net.edges ++ [(ida, idb)]) ∧
      (∀ e i, dictLookup net.node_id_map e = some i →
        dictLookup net'.node_id_map e = some i) ∧
      (∀ e i, dictLookup net'.node_id_map e = some i →
        dictLookup net.node_id_map e = some i ∨ net.current_id < i) ∧
      (net.wf → net'.wf) := by
  refine ⟨?_, ?_, (connect_spec net a b).1, ?_⟩
  · intro e he
    obtain ⟨i, hi⟩ := Option.isSome_iff_exists.mp he
    simp [Network.attach, hi]
  · simp [Network.wf, Network.empty]
  · intro net' h
    obtain ⟨⟨ida, idb, hida, hidb, hed⟩, hfa, hfb, hpres, hcas, hwf⟩ :=
      (connect_spec net a b).2 net' h
    exact ⟨Option.isSome_iff_exists.mpr ⟨ida, hida⟩,
      Option.isSome_iff_exists.mpr ⟨idb, hidb⟩, hfa, hfb,
      ⟨ida, idb, hida, hidb, hed⟩, hpres, hcas, hwf⟩

/-- Witness for C8: connecting 1 and 2 on the empty network succeeds and the
resulting network has node 1 attached and both flags false. -/
theorem connect_attaches_edges_and_resets_flags_witness :
    (Network.empty.connect 1 2).isSome = true ∧
    (dictLookup (Network.mk [(1, 1), (2, 2)] [(1, 2)] [(1, false), (2, false)] 2
      [(1, 1), (2, 2)]).node_id_map 1).isSome = true ∧
    dictLookup (Network.mk [(1, 1), (2, 2)] [(1, 2)] [(1, false), (2, false)] 2
      [(1, 1), (2, 2)]).activation_flags 1 = some false ∧
    dictLookup (Network.mk [(1, 1), (2, 2)] [(1, 2)] [(1, false), (2, false)] 2
      [(1, 1), (2, 2)]).activation_flags 2 = some false := by
  have h := connect_attaches_edges_and_resets_flags Network.empty 1 2
  have h4 := h.2.2.2 (Network.mk [(1, 1), (2, 2)] [(1, 2)] [(1, false), (2, false)] 2
    [(1, 1), (2, 2)]) (by decide)
  exact ⟨h.2.2.1, h4.1, h4.2.2.1, h4.2.2.2.1⟩

theorem chainNet_eq (a b c : Nat) (hab : a ≠ b) (hbc : b ≠ c) (hac : a ≠ c) :
    chainNet a b c = some (Network.mk [(1, a), (2, b), (3, c)] [(1, 2), (2, 3)]
      [(a, false), (b, false), (c, false)] 3 [(a, 1), (b, 2), (c, 3)]) := by
  simp [chainNet, Network.connect, Network.attach, Network.next_id, Network.empty,
    dictInsert, dictLookup, hab, hbc, hac]

/-- C1 counterexample: on the chain 1 → 2 → 3 where node 1 returns true but
node 2 returns false, activating node 1 invokes node 2 once and node 3 never —
contradicting the claim that a true return from the root alone guarantees
exactly one call on each of the two downstream nodes. -/
theorem chain_activation_claim_refuted :
    (fun n => decide (n = 1)) 1 = true ∧
    chainTrace 1 2 3 (fun n => decide (n = 1)) = some [1, 2] ∧
    [1, 2].count 3 = 0 := by
  refine ⟨rfl, by decide, by decide⟩

/-- C1 amended: on a chain `a → b → c` wired by `Network.connect`, activating
`a` when its `on_activate` returns true invokes `b` exactly once; `c` is then
invoked exactly once, after `b`, provided `b`'s `on_activate` also returns
true (a false return from `b` prunes `c` for the cycle); if `a` returns false,
neither `b` nor `c` is invoked. -/
theorem chain_activation_propagation (a b c : Nat) (ret : Nat → Bool)
    (hab : a ≠ b) (hbc : b ≠ c) (hac : a ≠ c) :
    (ret a = true → ret b = true →
      chainTrace a b c ret = some [a, b, c] ∧
      [a, b, c].count b = 1 ∧ [a, b, c].count c = 1) ∧
    (ret a = true → ret b = false → chainTrace a b c ret = some [a, b]) ∧
    (ret a = false → chainTrace a b c ret = some [a]) := by
  have hnet := chainNet_eq a b c hab hbc hac
  refine ⟨fun ha hb => ⟨?_, ?_, ?_⟩, fun ha hb => ?_, fun ha => ?_⟩
  · simp [chainTrace, hnet, Network.activate, clearActivationFlags, Network.dependents,
      depthScan, dictLookup, dictInsert, traceBeh, ha, hb, hab, hbc, hac]
  · simp [List.count_cons, hab, hbc, hac, hab.symm, hbc.symm, hac.symm]
  · simp [List.count_cons, hab, hbc, hac, hab.symm, hbc.symm, hac.symm]
  · simp [chainTrace, hnet, Network.activate, clearActivationFlags, Network.dependents,
      depthScan, dictLookup, dictInsert, traceBeh, ha, hb, hab, hbc, hac]
  · simp [chainTrace, hnet, Network.activate, clearActivationFlags, Network.dependents,
      depthScan, dictLookup, dictInsert, traceBeh, ha, hab, hbc, hac]

/-- Witness for C1 on the chain 1 → 2 → 3 with every node returning true, and
with only the root returning true. -/
theorem chain_activation_propagation_witness :
    chainTrace 1 2 3 (fun _ => true) = some [1, 2, 3] ∧
    chainTrace 1 2 3 (fun n => decide (n ≤ 1)) = some [1, 2] ∧
    chainTrace 1 2 3 (fun _ => false) = some [1] := by
  refine ⟨((chain_activation_propagation 1 2 3 (fun _ => true)
    (by decide) (by decide) (by decide)).1 rfl rfl).1, ?_, ?_⟩
  · exact (chain_activation_propagation 1 2 3 (fun n => decide (n ≤ 1))
      (by decide) (by decide) (by decide)).2.1 rfl rfl
  · exact (chain_activation_propagation 1 2 3 (fun _ => false)
      (by decide) (by decide) (by decide)).2.2 rfl

end Tau
